import Mathlib

/-!
Verification of the generic table CRUD server and its client modules.

The embedding below translates the dynamic CRUD portion of the Express
server (the `/api/:table` route family: metadata introspection with its
process-lifetime cache, list, get-one, create, update, delete, search),
the client data-access wrappers, and the validation helpers
(`validateInteger`, `inferFieldType`, `quoteIdentifier`).

SQLite values are modelled by the inductive `Value` (NULL, INTEGER, TEXT;
REAL and BLOB are not exercised by the properties below).  A database row
is an association list from column name to value.  The SQL fragments the
server synthesizes are modelled by executable Lean functions giving their
semantics on such rows: `ORDER BY pk DESC` is a sort by the SQLite type
ordering, `LIKE` is the full wildcard pattern match (ASCII
case-insensitive), `WHERE pk = ?` with a text-bound parameter is a
comparison after INTEGER-affinity conversion.
-/

/-- A SQLite value as far as the modelled routes observe it. -/
inductive Value where
  | vnull : Value
  | vint (i : Int) : Value
  | vtext (s : String) : Value
deriving DecidableEq, Repr

/-- A database row (also used for a parsed JSON request body): an
association list from column name to value. -/
abbrev Row := List (String × Value)

/-- Look a column up in a row; a missing column reads as SQL NULL. -/
def rowGet (r : Row) (c : String) : Value :=
  match r.find? (fun p => p.1 == c) with
  | some p => p.2
  | none => Value.vnull

/-- Whether a JSON body has the key (`Object.prototype.hasOwnProperty`). -/
def hasKey (r : Row) (c : String) : Bool :=
  r.any (fun p => p.1 == c)

/-- SQLite cross-type ordering restricted to the modelled storage classes:
NULL sorts before INTEGER, INTEGER before TEXT; integers by numeric value,
text by the default BINARY collation (codepoint order). -/
def valueLe : Value → Value → Bool
  | Value.vnull, _ => true
  | Value.vint _, Value.vnull => false
  | Value.vint i, Value.vint j => decide (i ≤ j)
  | Value.vint _, Value.vtext _ => true
  | Value.vtext _, Value.vnull => false
  | Value.vtext _, Value.vint _ => false
  | Value.vtext s, Value.vtext t => decide (s ≤ t)

/-- Strict form of `valueLe`. -/
def valueLt (a b : Value) : Bool :=
  valueLe a b && !(valueLe b a)

/-! ## Schema introspection (`getTableMetadata`, server part_003 lines 169-202) -/

/-- One row of `PRAGMA table_info(t)` as the code reads it: the column
name and the `pk` field (0 = not part of the primary key, otherwise the
1-based position of the column within the primary key). -/
structure PragmaRow where
  name : String
  pk : Nat
deriving DecidableEq, Repr

/-- The cached `{ columns, primaryKey }` object. -/
structure TableMeta where
  columns : List String
  primaryKey : Option String
deriving DecidableEq, Repr

/-- The body of the `PRAGMA table_info` callback (lines 193-196):
`columns = rows.map(r => r.name)`;
`pkRow = rows.find(r => r.pk === 1) || rows.find(r => r.pk > 0)`;
`primaryKey = pkRow ? pkRow.name : (columns.includes('id') ? 'id' : null)`. -/
def computeMeta (rows : List PragmaRow) : TableMeta :=
  let columns := rows.map (fun r => r.name)
  let pkRow :=
    match rows.find? (fun r => r.pk == 1) with
    | some r => some r
    | none => rows.find? (fun r => r.pk > 0)
  let primaryKey :=
    match pkRow with
    | some r => some r.name
    | none => if columns.contains "id" then some "id" else none
  { columns := columns, primaryKey := primaryKey }

/-- The process-lifetime `metadataCache` map (line 170). -/
abbrev MetaCache := List (String × TableMeta)

def cacheLookup (cache : MetaCache) (t : String) : Option TableMeta :=
  match cache.find? (fun p => p.1 == t) with
  | some p => some p.2
  | none => none

/-- The database schema as `getTableMetadata` queries it: for a table
name, `none` when the `sqlite_master` existence check finds no table,
otherwise the `PRAGMA table_info` rows. -/
abbrev DbSchema := String → Option (List PragmaRow)

/-- `getTableMetadata` (lines 176-202) with the cache passed explicitly:
empty table name is an error (`!tableName`); a cache hit returns the
cached object unchanged; otherwise the schema is introspected, the result
cached, and returned. -/
def getTableMetadata (cache : MetaCache) (tableName : String) (dbinfo : DbSchema) :
    Except String (TableMeta × MetaCache) :=
  if tableName = "" then Except.error "Table name is required"
  else
    match cacheLookup cache tableName with
    | some meta => Except.ok (meta, cache)
    | none =>
      match dbinfo tableName with
      | none => Except.error ("Table not found: " ++ tableName)
      | some rows =>
        if rows = [] then Except.error ("No columns found for " ++ tableName)
        else
          let meta := computeMeta rows
          Except.ok (meta, (tableName, meta) :: cache)

/-! ## `quoteIdentifier` (part_003 lines 172-174) -/

/-- The global-regex replace `String(identifier).replace(/"/g, '""')`:
every double-quote character is doubled, scanning left to right. -/
def doubleQuotes : List Char → List Char
  | [] => []
  | c :: cs => if c = '"' then '"' :: '"' :: doubleQuotes cs else c :: doubleQuotes cs

/-- `quoteIdentifier` wraps the escaped identifier in double quotes. -/
def quoteIdentifier (identifier : String) : String :=
  String.mk ('"' :: doubleQuotes identifier.data ++ ['"'])

/-! ## Generic CRUD route handlers (part_003 lines 213-315)

Each handler is modelled as the body of its `getTableMetadata` callback,
taking the resolved `meta` plus the table contents; the metadata-error
path (HTTP 400) is modelled where a claim depends on it. -/

/-- Value of a string of decimal digits. -/
def digitsVal (ds : List Char) : Nat :=
  ds.foldl (fun n c => n * 10 + (c.toNat - '0'.toNat)) 0

/-- A text value read as an integer (optional sign, decimal digits),
`none` when the text is not a decimal numeral. -/
def textToInt? (s : String) : Option Int :=
  match s.data with
  | '-' :: ds =>
    if ds ≠ [] ∧ ds.all (fun c => c.isDigit) then some (-(digitsVal ds : Int)) else none
  | ds =>
    if ds ≠ [] ∧ ds.all (fun c => c.isDigit) then some ((digitsVal ds : Int)) else none

/-- Semantics of `WHERE pk = ?` with the URL's `:id` segment (a string)
bound as the parameter, under SQLite affinity: comparing against an
INTEGER-typed value converts the text to an integer when it is a decimal
numeral, a TEXT value compares byte-wise, NULL never compares equal. -/
def paramMatches : Value → String → Bool
  | Value.vnull, _ => false
  | Value.vint i, s => textToInt? s == some i
  | Value.vtext t, s => t == s

/-- The descending comparison used to model `ORDER BY pk DESC`: row `a`
precedes row `b` when `b`'s key is at most `a`'s key. -/
def rowDescRel (pk : String) (a b : Row) : Prop :=
  valueLe (rowGet b pk) (rowGet a pk) = true

instance (pk : String) : DecidableRel (rowDescRel pk) := fun _ _ =>
  inferInstanceAs (Decidable (_ = true))

/-- Result set of `SELECT * FROM t ORDER BY pk DESC`. -/
def orderByPkDesc (pk : String) (tableRows : List Row) : List Row :=
  List.insertionSort (rowDescRel pk) tableRows

/-- The rows the list route sends: line 219 adds `ORDER BY pk DESC`
exactly when the metadata has a primary key. -/
def listBody (meta : TableMeta) (tableRows : List Row) : List Row :=
  match meta.primaryKey with
  | some pk => orderByPkDesc pk tableRows
  | none => tableRows

/-- Outcome of `GET /api/:table` (lines 215-226): metadata failure is a
400 with the error text; otherwise 200 with the (possibly ordered) rows. -/
inductive ListOutcome where
  | failure (status : Nat) (message : String) : ListOutcome
  | success (status : Nat) (rows : List Row) : ListOutcome
deriving DecidableEq, Repr

/-- `GET /api/:table`, returning the response plus the cache left behind. -/
def apiGetTable (cache : MetaCache) (table : String) (dbinfo : DbSchema)
    (tableRows : List Row) : ListOutcome × MetaCache :=
  match getTableMetadata cache table dbinfo with
  | Except.error msg => (ListOutcome.failure 400 msg, cache)
  | Except.ok (meta, cache') => (ListOutcome.success 200 (listBody meta tableRows), cache')

/-- Outcome of the single-row routes. -/
inductive ItemOutcome where
  | badRequest (message : String) : ItemOutcome
  | notFound : ItemOutcome
  | found (row : Row) : ItemOutcome
deriving DecidableEq, Repr

/-- `GET /api/:table/:id` callback body (lines 231-240): 400 without a
primary key, 404 when no row matches, otherwise the first matching row. -/
def apiGetOne (meta : TableMeta) (idp : String) (tableRows : List Row) : ItemOutcome :=
  match meta.primaryKey with
  | none => ItemOutcome.badRequest "Primary key not found for this table"
  | some pk =>
    match tableRows.find? (fun r => paramMatches (rowGet r pk) idp) with
    | none => ItemOutcome.notFound
    | some r => ItemOutcome.found r

/-- The columns the create/update routes will write: the table's columns
minus the primary-key column (`c !== meta.primaryKey`), kept when the
request body has the key (lines 248-249 and 270-271). -/
def bodyKeys (meta : TableMeta) (body : Row) : List String :=
  (meta.columns.filter (fun c => !(meta.primaryKey == some c))).filter (hasKey body)

/-- Outcome of `POST /api/:table`: 400, or 201 carrying the JSON response
object and the column/value assignments the INSERT wrote. -/
inductive PostOutcome where
  | badRequest (message : String) : PostOutcome
  | created (response : Row) (inserted : Row) : PostOutcome
deriving DecidableEq, Repr

/-- `POST /api/:table` callback body (lines 246-261).  `lastID` models
the engine's auto-assigned rowid for the insert. -/
def apiPostTable (meta : TableMeta) (body : Row) (lastID : Int) : PostOutcome :=
  let keys := bodyKeys meta body
  if keys = [] then PostOutcome.badRequest "No valid columns provided in request body"
  else
    let values := keys.map (rowGet body)
    let inserted := keys.zip values
    let response :=
      match meta.primaryKey with
      | some pk => inserted ++ [(pk, Value.vint lastID)]
      | none => inserted
    PostOutcome.created response inserted

/-- Outcome of `PUT /api/:table/:id` / `DELETE /api/:table/:id`. -/
inductive WriteOutcome where
  | badRequest (message : String) : WriteOutcome
  | notFound : WriteOutcome
  | ok (response : Row) : WriteOutcome
  | noContent : WriteOutcome
deriving DecidableEq, Repr

/-- `SET k = v` for one assignment applied to one row. -/
def rowSet (r : Row) (k : String) (v : Value) : Row :=
  r.map (fun p => if p.1 = k then (k, v) else p)

/-- All assignments of the UPDATE applied to one row. -/
def rowSetMany (r : Row) (assignments : Row) : Row :=
  assignments.foldl (fun acc p => rowSet acc p.1 p.2) r

/-- `PUT /api/:table/:id` callback body (lines 267-283), returning the
HTTP outcome and the table contents after the UPDATE ran.  `this.changes`
is the number of rows the WHERE clause matched. -/
def apiPutTable (meta : TableMeta) (idp : String) (body : Row)
    (tableRows : List Row) : WriteOutcome × List Row :=
  match meta.primaryKey with
  | none => (WriteOutcome.badRequest "Primary key not found for this table", tableRows)
  | some pk =>
    let keys := bodyKeys meta body
    if keys = [] then
      (WriteOutcome.badRequest "No updatable columns provided in request body", tableRows)
    else
      let values := keys.map (rowGet body)
      let newRows := tableRows.map (fun r =>
        if paramMatches (rowGet r pk) idp then rowSetMany r (keys.zip values) else r)
      let changes := tableRows.countP (fun r => paramMatches (rowGet r pk) idp)
      if changes = 0 then (WriteOutcome.notFound, newRows)
      else (WriteOutcome.ok (keys.zip values ++ [(pk, Value.vtext idp)]), newRows)

/-- `DELETE /api/:table/:id` callback body (lines 289-298). -/
def apiDeleteTable (meta : TableMeta) (idp : String)
    (tableRows : List Row) : WriteOutcome × List Row :=
  match meta.primaryKey with
  | none => (WriteOutcome.badRequest "Primary key not found for this table", tableRows)
  | some pk =>
    let remaining := tableRows.filter (fun r => !(paramMatches (rowGet r pk) idp))
    let changes := tableRows.countP (fun r => paramMatches (rowGet r pk) idp)
    if changes = 0 then (WriteOutcome.notFound, tableRows)
    else (WriteOutcome.noContent, remaining)

/-! ## Search route and LIKE semantics (part_003 lines 302-315) -/

/-- ASCII lower-casing, the case folding SQLite's default `LIKE` applies. -/
def toLowerAscii (c : Char) : Char :=
  if 'A' ≤ c ∧ c ≤ 'Z' then Char.ofNat (c.toNat + 32) else c

/-- SQLite `LIKE` pattern matching (no ESCAPE clause): `%` matches any
sequence, `_` matches any single character, any other pattern character
matches ASCII case-insensitively.  Recursion is structural in the
pattern: a `%` tries every suffix of the remaining string. -/
def likeMatch : List Char → List Char → Bool
  | [], s => s.isEmpty
  | p :: ps, s =>
    if p = '%' then (s.tails).any (fun s2 => likeMatch ps s2)
    else if p = '_' then
      match s with
      | [] => false
      | _ :: s2 => likeMatch ps s2
    else
      match s with
      | [] => false
      | c :: s2 => toLowerAscii p == toLowerAscii c && likeMatch ps s2

/-- `CAST(v AS TEXT)`: NULL stays NULL (so a NULL column never satisfies
the LIKE), an integer renders as its decimal numeral, text is unchanged. -/
def castText : Value → Option String
  | Value.vnull => none
  | Value.vint i => some (toString i)
  | Value.vtext s => some s

/-- The WHERE clause of the search route (line 307): one
`CAST(col AS TEXT) LIKE ?` per column with the `%q%` pattern (line 306)
bound to each, ORed together. -/
def rowMatchesSearch (cols : List String) (q : String) (r : Row) : Bool :=
  cols.any (fun c =>
    match castText (rowGet r c) with
    | none => false
    | some s => likeMatch ('%' :: (q.data ++ ['%'])) s.data)

/-- `GET /api/:table/search/:q` callback body (lines 304-314): HTTP 200
with the rows satisfying the OR of the per-column LIKEs. -/
def apiSearchTable (meta : TableMeta) (q : String) (tableRows : List Row) :
    Nat × List Row :=
  (200, tableRows.filter (rowMatchesSearch meta.columns q))

/-! ## Client data-access module (part_004) -/

/-- `response.ok` of the Fetch API: status in the inclusive range 200-299. -/
def jsFetchOk (status : Nat) : Bool :=
  decide (200 ≤ status) && decide (status ≤ 299)

/-- What one data-access wrapper does with the response status: throw
with a message, or return normally. -/
inductive FetchResult where
  | thrown (message : String) : FetchResult
  | ok : FetchResult
deriving DecidableEq, Repr

/-- `fetchAllItems` (part_004 lines 3-9). -/
def fetchAllItemsResult (status : Nat) : FetchResult :=
  if jsFetchOk status then FetchResult.ok
  else FetchResult.thrown ("HTTP error! status: " ++ toString status)

/-- `fetchFilteredItems` (lines 11-18). -/
def fetchFilteredItemsResult (status : Nat) : FetchResult :=
  if jsFetchOk status then FetchResult.ok
  else FetchResult.thrown ("HTTP error! status: " ++ toString status)

/-- `createItem` (lines 20-30). -/
def createItemResult (status : Nat) : FetchResult :=
  if jsFetchOk status then FetchResult.ok
  else FetchResult.thrown ("Create failed: " ++ toString status)

/-- `updateItem` (lines 32-42). -/
def updateItemResult (status : Nat) : FetchResult :=
  if jsFetchOk status then FetchResult.ok
  else FetchResult.thrown ("Update failed: " ++ toString status)

/-- `deleteItem` (lines 44-52). -/
def deleteItemResult (status : Nat) : FetchResult :=
  if jsFetchOk status then FetchResult.ok
  else FetchResult.thrown ("Deletion failed: " ++ toString status)

/-- `fetchTableMeta` (lines 54-60): note the message carries the table
name, not the status. -/
def fetchTableMetaResult (tableName : String) (status : Nat) : FetchResult :=
  if jsFetchOk status then FetchResult.ok
  else FetchResult.thrown ("Failed to load metadata for " ++ tableName)

/-! ## Validation module (part_007) -/

/-- `needle.isPrefixOf hay` on character lists, written out. -/
def startsWithChars : List Char → List Char → Bool
  | [], _ => true
  | _ :: _, [] => false
  | a :: as, b :: bs => a == b && startsWithChars as bs

/-- Substring test: some suffix of `hay` starts with `needle` (the model
of JavaScript `hay.includes(needle)`). -/
def containsSub (hay needle : List Char) : Bool :=
  (hay.tails).any (startsWithChars needle)

/-- `String.prototype.includes`. -/
def strContains (hay needle : String) : Bool :=
  containsSub hay.data needle.data

/-- `String.prototype.toLowerCase`, modelled on the ASCII range (the
column names the system handles are ASCII identifiers). -/
def toLowerStr (s : String) : String :=
  String.mk (s.data.map toLowerAscii)

/-- `inferFieldType` (part_007 lines 273-286). -/
def inferFieldType (fieldName : String) : String :=
  let name := toLowerStr fieldName
  if strContains name "email" || strContains name "mail" then "email"
  else if strContains name "id" || strContains name "count" || strContains name "number"
      || strContains name "price" || strContains name "amount" || strContains name "quantity" then
    "number"
  else "text"

/-- JavaScript `parseInt(value)` on a string with no radix argument,
restricted to decimal input: skip leading whitespace, one optional sign,
then the longest digit prefix; NaN (`none`) when no digit follows.
(The hexadecimal `0x` autodetection and the float overflow of very long
numerals are outside the modelled inputs.) -/
def parseIntJS (s : String) : Option Int :=
  let cs := s.data.dropWhile (fun c => c.isWhitespace)
  let signed : Bool × List Char :=
    match cs with
    | '-' :: rest => (true, rest)
    | '+' :: rest => (false, rest)
    | _ => (false, cs)
  let digits := signed.2.takeWhile (fun c => c.isDigit)
  if digits = [] then none
  else
    let n : Nat := digits.foldl (fun acc c => acc * 10 + (c.toNat - '0'.toNat)) 0
    some (if signed.1 then -(n : Int) else (n : Int))

/-- `String.prototype.trim`: strip leading and trailing whitespace. -/
def jsTrim (s : String) : String :=
  String.mk (((s.data.dropWhile (fun c => c.isWhitespace)).reverse.dropWhile
    (fun c => c.isWhitespace)).reverse)

/-- A `ValidationError`: message plus the field it names. -/
structure ValidationErr where
  message : String
  field : String
deriving DecidableEq, Repr

/-- `validateInteger` (part_007 lines 65-73) on a string value: skipped
(returns true) when the value is empty or whitespace-only; otherwise
throws when `parseInt` yields NaN.  When `parseInt` succeeds on a decimal
input it yields a mathematical integer, so the code's
`!Number.isInteger(intValue)` conjunct is never true on these inputs. -/
def validateInteger (value fieldName : String) : Except ValidationErr Bool :=
  if value ≠ "" ∧ jsTrim value ≠ "" then
    match parseIntJS value with
    | none => Except.error ⟨fieldName ++ " must be a valid integer", fieldName⟩
    | some _ => Except.ok true
  else Except.ok true

/-! ## Spec-side comparison definitions

These three definitions follow the specification's words (not the code);
each is compared against the corresponding code-derived definition in the
theorems below. -/

/-- The specification's resolution of `primaryKey`: the first column the
engine flags as part of a primary key (first pragma row with `pk > 0`);
if none is flagged, the column literally named `id` when one exists;
otherwise absent. -/
def specFirstFlaggedPrimaryKey (rows : List PragmaRow) : Option String :=
  match rows.find? (fun r => r.pk > 0) with
  | some r => some r.name
  | none =>
    if (rows.map (fun r => r.name)).contains "id" then some "id" else none

/-- The specification's search condition: the text rendering of at least
one column contains `q` as a case-insensitive substring. -/
def specSearchMatches (cols : List String) (q : String) (r : Row) : Bool :=
  cols.any (fun c =>
    match castText (rowGet r c) with
    | none => false
    | some s => containsSub (s.data.map toLowerAscii) (q.data.map toLowerAscii))

/-- The specification's acceptance condition for the integer rule: the
value parses as a base-10 integer with no fractional remainder, i.e. the
trimmed value is an optional sign followed by one or more digits and
nothing else. -/
def specIntegerAccepts (s : String) : Bool :=
  let cs := (jsTrim s).data
  let body :=
    match cs with
    | '-' :: rest => rest
    | '+' :: rest => rest
    | _ => cs
  !body.isEmpty && body.all (fun c => c.isDigit)

/-! ## Helper lemmas -/

theorem valueLe_total (a b : Value) : valueLe a b = true ∨ valueLe b a = true := by
  cases a <;> cases b <;> simp [valueLe] <;> first
    | exact Int.le_total _ _
    | exact le_total _ _

theorem valueLe_trans {a b c : Value} (hab : valueLe a b = true)
    (hbc : valueLe b c = true) : valueLe a c = true := by
  cases a <;> cases b <;> cases c <;> simp_all [valueLe] <;> exact le_trans hab hbc

theorem valueLe_antisymm {a b : Value} (h1 : valueLe a b = true)
    (h2 : valueLe b a = true) : a = b := by
  cases a <;> cases b <;>
    simp only [valueLe, decide_eq_true_eq] at h1 h2 <;>
    first
      | rfl
      | exact Bool.noConfusion h1
      | exact Bool.noConfusion h2
      | exact congrArg Value.vint (le_antisymm h1 h2)
      | exact congrArg Value.vtext (le_antisymm h1 h2)

theorem zip_self_map {α β : Type} (g : α → β) (l : List α) :
    l.zip (l.map g) = l.map (fun a => (a, g a)) := by
  induction l with
  | nil => rfl
  | cons a l ih => simp [ih]

theorem map_eq_append_split {α β : Type} (f : α → β) {l : List α} {A B : List β}
    (h : l.map f = A ++ B) : ∃ l1 l2, l = l1 ++ l2 ∧ l1.map f = A ∧ l2.map f = B := by
  induction A generalizing l with
  | nil => exact ⟨[], l, rfl, rfl, h⟩
  | cons a A ih =>
    cases l with
    | nil => simp at h
    | cons x l =>
      simp only [List.map_cons, List.cons_append, List.cons.injEq] at h
      obtain ⟨l1, l2, hl, hA, hB⟩ := ih h.2
      exact ⟨x :: l1, l2, by simp [hl], by simp [h.1, hA], hB⟩

theorem startsWithChars_iff (p s : List Char) :
    startsWithChars p s = true ↔ ∃ t, s = p ++ t := by
  induction p generalizing s with
  | nil => simp [startsWithChars]
  | cons a p ih =>
    cases s with
    | nil => simp [startsWithChars]
    | cons b s =>
      simp only [startsWithChars, Bool.and_eq_true, beq_iff_eq, ih, List.cons_append,
        List.cons.injEq]
      constructor
      · rintro ⟨rfl, t, rfl⟩
        exact ⟨t, rfl, rfl⟩
      · rintro ⟨t, rfl, rfl⟩
        exact ⟨rfl, t, rfl⟩

theorem containsSub_iff (hay needle : List Char) :
    containsSub hay needle = true ↔ ∃ u v, hay = u ++ needle ++ v := by
  simp only [containsSub, List.any_eq_true, List.mem_tails]
  constructor
  · rintro ⟨s2, hsuf, hstart⟩
    obtain ⟨u, rfl⟩ := hsuf
    obtain ⟨v, rfl⟩ := (startsWithChars_iff needle s2).mp hstart
    exact ⟨u, v, by simp⟩
  · rintro ⟨u, v, rfl⟩
    exact ⟨needle ++ v, ⟨u, by simp⟩, (startsWithChars_iff needle _).mpr ⟨v, rfl⟩⟩

theorem likeMatch_percent (ps s : List Char) :
    likeMatch ('%' :: ps) s = true ↔ ∃ s2, s2 <:+ s ∧ likeMatch ps s2 = true := by
  simp [likeMatch, List.any_eq_true, List.mem_tails]

theorem likeMatch_lit_percent (q : List Char) (hw : ∀ c ∈ q, c ≠ '%' ∧ c ≠ '_') :
    ∀ s : List Char, (likeMatch (q ++ ['%']) s = true ↔
      ∃ t u, s = t ++ u ∧ t.map toLowerAscii = q.map toLowerAscii) := by
  induction q with
  | nil =>
    intro s
    simp only [List.nil_append, List.map_nil]
    constructor
    · intro _
      exact ⟨[], s, rfl, rfl⟩
    · intro _
      simp [likeMatch, List.any_eq_true]
  | cons c q ih =>
    intro s
    have hc := hw c (by simp)
    have hw' : ∀ x ∈ q, x ≠ '%' ∧ x ≠ '_' := fun x hx => hw x (by simp [hx])
    cases s with
    | nil =>
      simp only [List.cons_append, likeMatch, if_neg hc.1, if_neg hc.2]
      constructor
      · intro h
        exact absurd h (by simp)
      · rintro ⟨t, u, h, hm⟩
        rcases List.append_eq_nil.mp h.symm with ⟨rfl, -⟩
        simp at hm
    | cons d s =>
      simp only [List.cons_append, likeMatch, if_neg hc.1, if_neg hc.2,
        Bool.and_eq_true, beq_iff_eq, List.append_eq, ih hw' s]
      constructor
      · rintro ⟨hl, t, u, rfl, hm⟩
        exact ⟨d :: t, u, rfl, by simp [hm, hl]⟩
      · rintro ⟨t, u, h, hm⟩
        cases t with
        | nil => simp at hm
        | cons x t =>
          simp only [List.cons_append, List.cons.injEq] at h
          simp only [List.map_cons, List.cons.injEq] at hm
          obtain ⟨rfl, rfl⟩ := h
          exact ⟨by rw [hm.1], t, u, rfl, hm.2⟩

/-- The `%q%` LIKE pattern on a wildcard-free `q` tests exactly the
case-insensitive substring relation. -/
theorem likeMatch_pattern_iff_contains (q s : List Char)
    (hw : ∀ c ∈ q, c ≠ '%' ∧ c ≠ '_') :
    likeMatch ('%' :: (q ++ ['%'])) s = true ↔
      containsSub (s.map toLowerAscii) (q.map toLowerAscii) = true := by
  rw [likeMatch_percent, containsSub_iff]
  constructor
  · rintro ⟨s2, ⟨u, rfl⟩, hm⟩
    obtain ⟨t, v, rfl, ht⟩ := (likeMatch_lit_percent q hw s2).mp hm
    exact ⟨u.map toLowerAscii, v.map toLowerAscii, by simp [ht]⟩
  · rintro ⟨U, V, hUV⟩
    rw [List.append_assoc] at hUV
    obtain ⟨u, rest, rfl, hU, hrest⟩ := map_eq_append_split _ hUV
    obtain ⟨t, v, rfl, hT, hV⟩ := map_eq_append_split _ hrest
    exact ⟨t ++ v, ⟨u, rfl⟩, (likeMatch_lit_percent q hw _).mpr ⟨t, v, rfl, hT⟩⟩

theorem doubleQuotes_eq_flatMap (cs : List Char) :
    doubleQuotes cs = cs.flatMap (fun c => if c = '"' then ['"', '"'] else [c]) := by
  induction cs with
  | nil => rfl
  | cons c cs ih =>
    simp only [doubleQuotes, List.flatMap_cons, ih]
    split <;> simp_all

/-! ## Claim theorems -/

/-- C6: `quoteIdentifier` returns its argument with every double-quote
character doubled and the result wrapped in one leading and one trailing
double quote; in particular on `a"b` it produces exactly the six
characters double-quote, `a`, double-quote, double-quote, `b`,
double-quote. -/
theorem quoteIdentifier_doubles_and_wraps :
    (∀ s : String, (quoteIdentifier s).data =
      '"' :: s.data.flatMap (fun c => if c = '"' then ['"', '"'] else [c]) ++ ['"']) ∧
    (quoteIdentifier (String.mk ['a', '"', 'b'])).data =
      ['"', 'a', '"', '"', 'b', '"'] := by
  constructor
  · intro s
    simp [quoteIdentifier, doubleQuotes_eq_flatMap]
  · rfl

/-- C7: `inferFieldType` lower-cases the field name and returns `email`
exactly when it contains `email` or `mail`; otherwise `number` exactly
when it contains one of `id`, `count`, `number`, `price`, `amount`,
`quantity`; otherwise `text`.  In particular `countryname` is classified
`number` (it contains `count`). -/
theorem inferFieldType_classification (name : String) :
    (inferFieldType name = "email" ↔
      (strContains (toLowerStr name) "email" || strContains (toLowerStr name) "mail") = true) ∧
    (inferFieldType name = "number" ↔
      ((strContains (toLowerStr name) "email" || strContains (toLowerStr name) "mail") = false ∧
        (strContains (toLowerStr name) "id" || strContains (toLowerStr name) "count" ||
          strContains (toLowerStr name) "number" || strContains (toLowerStr name) "price" ||
          strContains (toLowerStr name) "amount" ||
          strContains (toLowerStr name) "quantity") = true)) ∧
    (inferFieldType name = "text" ↔
      ((strContains (toLowerStr name) "email" || strContains (toLowerStr name) "mail") = false ∧
        (strContains (toLowerStr name) "id" || strContains (toLowerStr name) "count" ||
          strContains (toLowerStr name) "number" || strContains (toLowerStr name) "price" ||
          strContains (toLowerStr name) "amount" ||
          strContains (toLowerStr name) "quantity") = false)) ∧
    inferFieldType "countryname" = "number" := by
  refine ⟨?_, ?_, ?_, by rfl⟩ <;>
    (cases hB1 : (strContains (toLowerStr name) "email" ||
        strContains (toLowerStr name) "mail")) <;>
    (cases hB2 : (strContains (toLowerStr name) "id" ||
        strContains (toLowerStr name) "count" || strContains (toLowerStr name) "number" ||
        strContains (toLowerStr name) "price" || strContains (toLowerStr name) "amount" ||
        strContains (toLowerStr name) "quantity")) <;>
    simp [inferFieldType, hB1, hB2]

/-- C8: `validateInteger` accepts the string `3.7` because JavaScript
`parseInt` stops at the decimal point and yields the integer 3 (making
the `!Number.isInteger` conjunct unreachable on decimal input), while
the specified base-10-integer condition rejects `3.7`; empty and
whitespace-only values are skipped as specified. -/
theorem validateInteger_accepts_3_7 :
    validateInteger "3.7" "age" = Except.ok true ∧
    specIntegerAccepts "3.7" = false ∧
    validateInteger "" "age" = Except.ok true ∧
    validateInteger "   " "age" = Except.ok true := by
  refine ⟨?_, ?_, ?_, ?_⟩ <;> rfl

/-- C9 counterexample: a failing metadata fetch (HTTP 500) throws the
message `Failed to load metadata for products`, which does not contain
the numeric status at all, refuting the claim that every operation's
error message names the numeric status. -/
theorem fetchTableMeta_message_counterexample :
    fetchTableMetaResult "products" 500 =
      FetchResult.thrown "Failed to load metadata for products" ∧
    strContains "Failed to load metadata for products" "500" = false := by
  exact ⟨rfl, by rfl⟩

/-- C9 (amended): every data-access wrapper throws exactly on a
non-success status, with no retry; `createItem`, `updateItem`,
`deleteItem` throw messages naming the operation and the numeric status,
while `fetchAllItems` and `fetchFilteredItems` name only the status
(`HTTP error! status: N`) and `fetchTableMeta` names the table instead
of the status; a success status never throws. -/
theorem dataAccess_throw_contract (status : Nat) (tableName : String)
    (hfail : jsFetchOk status = false) :
    fetchAllItemsResult status = FetchResult.thrown ("HTTP error! status: " ++ toString status) ∧
    fetchFilteredItemsResult status =
      FetchResult.thrown ("HTTP error! status: " ++ toString status) ∧
    createItemResult status = FetchResult.thrown ("Create failed: " ++ toString status) ∧
    updateItemResult status = FetchResult.thrown ("Update failed: " ++ toString status) ∧
    deleteItemResult status = FetchResult.thrown ("Deletion failed: " ++ toString status) ∧
    fetchTableMetaResult tableName status =
      FetchResult.thrown ("Failed to load metadata for " ++ tableName) ∧
    strContains ("Create failed: " ++ toString status) (toString status) = true ∧
    strContains ("Update failed: " ++ toString status) (toString status) = true ∧
    strContains ("Deletion failed: " ++ toString status) (toString status) = true ∧
    (∀ s2 : Nat, jsFetchOk s2 = true →
      fetchAllItemsResult s2 = FetchResult.ok ∧ fetchFilteredItemsResult s2 = FetchResult.ok ∧
      createItemResult s2 = FetchResult.ok ∧ updateItemResult s2 = FetchResult.ok ∧
      deleteItemResult s2 = FetchResult.ok ∧ fetchTableMetaResult tableName s2 = FetchResult.ok) := by
  have hsub : ∀ a b : String, strContains (a ++ b) b = true := fun a b =>
    (containsSub_iff _ _).mpr ⟨a.data, [], by simp⟩
  refine ⟨?_, ?_, ?_, ?_, ?_, ?_, hsub _ _, hsub _ _, hsub _ _, ?_⟩ <;>
    simp [fetchAllItemsResult, fetchFilteredItemsResult, createItemResult,
      updateItemResult, deleteItemResult, fetchTableMetaResult, hfail]

/-- Witness for C9's amended contract at status 404. -/
theorem dataAccess_throw_contract_witness :
    createItemResult 404 = FetchResult.thrown "Create failed: 404" :=
  (dataAccess_throw_contract 404 "items" (by rfl)).2.2.1

/-- C2 counterexample: for the pragma result of
`CREATE TABLE t(b TEXT, a TEXT, PRIMARY KEY(a, b))` — column `b` carries
pk flag 2 and column `a` carries pk flag 1, in that order — the first
engine-flagged column is `b`, but the code resolves the primary key to
`a` (the row with `pk === 1`), refuting the first-flagged-column
resolution. -/
theorem metadata_first_flagged_counterexample :
    (computeMeta [⟨"b", 2⟩, ⟨"a", 1⟩]).primaryKey = some "a" ∧
    specFirstFlaggedPrimaryKey [⟨"b", 2⟩, ⟨"a", 1⟩] = some "b" ∧
    (computeMeta [⟨"b", 2⟩, ⟨"a", 1⟩]).primaryKey ≠
      specFirstFlaggedPrimaryKey [⟨"b", 2⟩, ⟨"a", 1⟩] := by
  refine ⟨rfl, rfl, by decide⟩

/-- C2 (amended): `columns` lists the pragma rows' names in order;
`primaryKey` is the column whose pk flag is 1 (the first declared
component of the primary key), else the first column with a positive pk
flag, else the column literally named `id` when present, else absent;
the resolved `{columns, primaryKey}` object is stored in the cache under
the table name, and every subsequent call for that name returns the same
object and cache regardless of the database schema seen later. -/
theorem metadata_pk_resolution_and_cache :
    (∀ rows : List PragmaRow, (computeMeta rows).columns = rows.map (fun r => r.name)) ∧
    (∀ (rows : List PragmaRow) (pr : PragmaRow),
      rows.find? (fun r => r.pk == 1) = some pr →
      (computeMeta rows).primaryKey = some pr.name) ∧
    (∀ (rows : List PragmaRow) (pr : PragmaRow),
      rows.find? (fun r => r.pk == 1) = none →
      rows.find? (fun r => r.pk > 0) = some pr →
      (computeMeta rows).primaryKey = some pr.name) ∧
    (∀ rows : List PragmaRow, (∀ r ∈ rows, r.pk = 0) →
      (computeMeta rows).primaryKey =
        (if (rows.map (fun r => r.name)).contains "id" then some "id" else none)) ∧
    (∀ (cache : MetaCache) (tableName : String) (dbinfo : DbSchema)
        (meta : TableMeta) (cache' : MetaCache),
      getTableMetadata cache tableName dbinfo = Except.ok (meta, cache') →
      cacheLookup cache' tableName = some meta ∧
      ∀ dbinfo2 : DbSchema, getTableMetadata cache' tableName dbinfo2 = Except.ok (meta, cache')) := by
  refine ⟨fun rows => rfl, ?_, ?_, ?_, ?_⟩
  · intro rows pr h
    simp [computeMeta, h]
  · intro rows pr h1 h2
    simp [computeMeta, h1, h2]
  · intro rows hall
    have h1 : rows.find? (fun r => r.pk == 1) = none := by
      rw [List.find?_eq_none]
      intro r hr
      simp [hall r hr]
    have h2 : rows.find? (fun r => decide (r.pk > 0)) = none := by
      rw [List.find?_eq_none]
      intro r hr
      simp [hall r hr]
    simp [computeMeta, h1, h2]
  · intro cache tableName dbinfo meta cache' h
    by_cases hname : tableName = ""
    · simp [getTableMetadata, hname] at h
    · rcases hcl : cacheLookup cache tableName with - | m
      · rcases hdb : dbinfo tableName with - | rows
        · simp [getTableMetadata, hname, hcl, hdb] at h
        · by_cases hrows : rows = []
          · simp [getTableMetadata, hname, hcl, hdb, hrows] at h
          · simp [getTableMetadata, hname, hcl, hdb, hrows] at h
            obtain ⟨rfl, rfl⟩ := h
            have hlook : cacheLookup ((tableName, computeMeta rows) :: cache) tableName =
                some (computeMeta rows) := by
              simp [cacheLookup]
            refine ⟨hlook, fun dbinfo2 => ?_⟩
            simp [getTableMetadata, hname, hlook]
      · simp [getTableMetadata, hname, hcl] at h
        obtain ⟨rfl, rfl⟩ := h
        exact ⟨hcl, fun dbinfo2 => by simp [getTableMetadata, hname, hcl]⟩

/-- Witness for C2's caching clause: after introspecting `items` once,
a later call returns the cached metadata even when the schema lookup no
longer finds the table. -/
theorem metadata_pk_resolution_and_cache_witness :
    getTableMetadata [("items", ⟨["id", "name"], some "id"⟩)] "items" (fun _ => none) =
      Except.ok (⟨["id", "name"], some "id"⟩, [("items", ⟨["id", "name"], some "id"⟩)]) :=
  (metadata_pk_resolution_and_cache.2.2.2.2 [] "items"
      (fun t => if t = "items" then some [⟨"id", 1⟩, ⟨"name", 0⟩] else none)
      ⟨["id", "name"], some "id"⟩ [("items", ⟨["id", "name"], some "id"⟩)] rfl).2
    (fun _ => none)

/-- C1: on a table whose metadata resolves (an existing table),
`GET /api/:table` answers HTTP 200 with the list body; when a primary key
exists the body is a permutation of the table's rows that is strictly
descending on the primary-key column (given the key values are pairwise
distinct, the primary-key invariant); with no primary key the rows are
passed through unchanged (no ORDER BY); an empty table yields 200 with
the empty array, never an error. -/
theorem getTable_ordering (cache : MetaCache) (table : String) (dbinfo : DbSchema)
    (tableRows : List Row) (meta : TableMeta) (cache' : MetaCache)
    (h : getTableMetadata cache table dbinfo = Except.ok (meta, cache')) :
    apiGetTable cache table dbinfo tableRows =
      (ListOutcome.success 200 (listBody meta tableRows), cache') ∧
    (∀ pk, meta.primaryKey = some pk →
      (listBody meta tableRows).Perm tableRows ∧
      (tableRows.Pairwise (fun a b => rowGet a pk ≠ rowGet b pk) →
        (listBody meta tableRows).Pairwise
          (fun a b => valueLt (rowGet b pk) (rowGet a pk) = true))) ∧
    (meta.primaryKey = none → listBody meta tableRows = tableRows) ∧
    (tableRows = [] → listBody meta tableRows = []) := by
  refine ⟨by simp [apiGetTable, h], ?_, ?_, ?_⟩
  · intro pk hpk
    have hlb : listBody meta tableRows = orderByPkDesc pk tableRows := by
      simp [listBody, hpk]
    rw [hlb]
    have hperm : (orderByPkDesc pk tableRows).Perm tableRows :=
      List.perm_insertionSort (rowDescRel pk) tableRows
    refine ⟨hperm, ?_⟩
    intro hdist
    haveI : IsTotal Row (rowDescRel pk) :=
      ⟨fun a b => (valueLe_total (rowGet b pk) (rowGet a pk)).elim Or.inl Or.inr⟩
    haveI : IsTrans Row (rowDescRel pk) :=
      ⟨fun _ _ _ hab hbc => valueLe_trans hbc hab⟩
    have hsorted : (orderByPkDesc pk tableRows).Pairwise (rowDescRel pk) :=
      List.sorted_insertionSort (rowDescRel pk) tableRows
    have hne : (orderByPkDesc pk tableRows).Pairwise
        (fun a b => rowGet a pk ≠ rowGet b pk) :=
      (List.Perm.pairwise_iff (fun hxy he => hxy he.symm) hperm).mpr hdist
    refine (hsorted.and hne).imp ?_
    intro a b hab
    have h1 : valueLe (rowGet b pk) (rowGet a pk) = true := hab.1
    have h2 : ¬ valueLe (rowGet a pk) (rowGet b pk) = true := by
      intro hc
      exact hab.2 (valueLe_antisymm hc h1)
    simp [valueLt, h1, h2]
  · intro hpk
    simp [listBody, hpk]
  · intro hrows
    subst hrows
    cases hpk : meta.primaryKey <;> simp [listBody, hpk, orderByPkDesc]

/-- Witness for C1 on a two-row `tbl` with integer primary key `id`. -/
theorem getTable_ordering_witness :
    apiGetTable [] "tbl" (fun t => if t = "tbl" then some [⟨"id", 1⟩, ⟨"name", 0⟩] else none)
        [[("id", Value.vint 1)], [("id", Value.vint 2)]] =
      (ListOutcome.success 200
        (listBody ⟨["id", "name"], some "id"⟩ [[("id", Value.vint 1)], [("id", Value.vint 2)]]),
       [("tbl", ⟨["id", "name"], some "id"⟩)]) :=
  (getTable_ordering [] "tbl"
      (fun t => if t = "tbl" then some [⟨"id", 1⟩, ⟨"name", 0⟩] else none)
      [[("id", Value.vint 1)], [("id", Value.vint 2)]]
      ⟨["id", "name"], some "id"⟩ [("tbl", ⟨["id", "name"], some "id"⟩)] rfl).1

theorem map_if_false {p : Row → Bool} {g : Row → Row} (l : List Row)
    (h : ∀ r ∈ l, p r = false) :
    (l.map fun r => if p r then g r else r) = l := by
  induction l with
  | nil => rfl
  | cons r l ih =>
    have hr := h r (by simp)
    simp [hr, ih (fun x hx => h x (by simp [hx]))]

/-- C3: `POST /api/:table` writes exactly the body keys that are
non-primary-key table columns (everything else in the body is ignored),
answers 400 when there are none, and otherwise answers 201 with the
submitted key/value pairs plus, when the table has a primary key, the
engine-assigned row id under the primary-key column. -/
theorem postTable_insert_contract (meta : TableMeta) (body : Row) (lastID : Int) :
    (∀ c, c ∈ bodyKeys meta body ↔
      (c ∈ meta.columns ∧ meta.primaryKey ≠ some c ∧ hasKey body c = true)) ∧
    (bodyKeys meta body = [] →
      apiPostTable meta body lastID =
        PostOutcome.badRequest "No valid columns provided in request body") ∧
    (bodyKeys meta body ≠ [] →
      apiPostTable meta body lastID =
        PostOutcome.created
          ((bodyKeys meta body).map (fun k => (k, rowGet body k)) ++
            (match meta.primaryKey with
             | some pk => [(pk, Value.vint lastID)]
             | none => []))
          ((bodyKeys meta body).map (fun k => (k, rowGet body k)))) := by
  refine ⟨?_, ?_, ?_⟩
  · intro c
    simp only [bodyKeys, List.mem_filter, Bool.not_eq_true', beq_eq_false_iff_ne, and_assoc]
  · intro hkeys
    simp [apiPostTable, hkeys]
  · intro hkeys
    cases hpk : meta.primaryKey <;>
      simp [apiPostTable, hkeys, hpk, zip_self_map]

/-- Witness for C3: inserting into a table `(id, name)` with body keys
`name` (kept) and `junk` (ignored) echoes the pair plus the new id. -/
theorem postTable_insert_contract_witness :
    apiPostTable ⟨["id", "name"], some "id"⟩
        [("name", Value.vtext "x"), ("junk", Value.vint 5)] 7 =
      PostOutcome.created [("name", Value.vtext "x"), ("id", Value.vint 7)]
        [("name", Value.vtext "x")] :=
  (postTable_insert_contract ⟨["id", "name"], some "id"⟩
      [("name", Value.vtext "x"), ("junk", Value.vint 5)] 7).2.2 (by decide)

/-- C4: `PUT /api/:table/:id` answers 400 when the table has no primary
key or the body holds no updatable column key; 404 when no row's
primary-key value matches `:id`, leaving every row unchanged; otherwise
200 with the submitted keys plus the id echoed back. -/
theorem putTable_status_contract (meta : TableMeta) (idp : String) (body : Row)
    (tableRows : List Row) :
    (meta.primaryKey = none →
      apiPutTable meta idp body tableRows =
        (WriteOutcome.badRequest "Primary key not found for this table", tableRows)) ∧
    (∀ pk, meta.primaryKey = some pk → bodyKeys meta body = [] →
      apiPutTable meta idp body tableRows =
        (WriteOutcome.badRequest "No updatable columns provided in request body", tableRows)) ∧
    (∀ pk, meta.primaryKey = some pk → bodyKeys meta body ≠ [] →
      (∀ r ∈ tableRows, paramMatches (rowGet r pk) idp = false) →
      apiPutTable meta idp body tableRows = (WriteOutcome.notFound, tableRows)) ∧
    (∀ pk, meta.primaryKey = some pk → bodyKeys meta body ≠ [] →
      (∃ r ∈ tableRows, paramMatches (rowGet r pk) idp = true) →
      (apiPutTable meta idp body tableRows).1 =
        WriteOutcome.ok ((bodyKeys meta body).map (fun k => (k, rowGet body k)) ++
          [(pk, Value.vtext idp)])) := by
  refine ⟨?_, ?_, ?_, ?_⟩
  · intro hpk
    simp [apiPutTable, hpk]
  · intro pk hpk hkeys
    simp [apiPutTable, hpk, hkeys]
  · intro pk hpk hkeys hnone
    have hchanges : tableRows.countP (fun r => paramMatches (rowGet r pk) idp) = 0 :=
      List.countP_eq_zero.mpr (fun r hr => by simp [hnone r hr])
    have hmap := map_if_false (p := fun r => paramMatches (rowGet r pk) idp)
      (g := fun r => rowSetMany r ((bodyKeys meta body).zip
        ((bodyKeys meta body).map (rowGet body)))) tableRows hnone
    simp [apiPutTable, hpk, hkeys, hchanges, hmap]
  · intro pk hpk hkeys hex
    have hpos : 0 < tableRows.countP (fun r => paramMatches (rowGet r pk) idp) := by
      rw [List.countP_pos_iff]
      obtain ⟨r, hr, hp⟩ := hex
      exact ⟨r, hr, by simp [hp]⟩
    have hne : tableRows.countP (fun r => paramMatches (rowGet r pk) idp) ≠ 0 :=
      Nat.pos_iff_ne_zero.mp hpos
    simp [apiPutTable, hpk, hkeys, hne, zip_self_map]

/-- Witness for C4: updating id 99 in a one-row table with only id 1
answers 404 and leaves the row untouched. -/
theorem putTable_status_contract_witness :
    apiPutTable ⟨["id", "name"], some "id"⟩ "99" [("name", Value.vtext "z")]
        [[("id", Value.vint 1), ("name", Value.vtext "a")]] =
      (WriteOutcome.notFound, [[("id", Value.vint 1), ("name", Value.vtext "a")]]) :=
  (putTable_status_contract ⟨["id", "name"], some "id"⟩ "99" [("name", Value.vtext "z")]
      [[("id", Value.vint 1), ("name", Value.vtext "a")]]).2.2.1 "id" rfl
    (by decide) (by decide)

/-- C10: on a table whose metadata has no primary key, a POST with at
least one valid body key succeeds: 201 with a body of exactly the
submitted pairs and no primary-key field, while single-row GET, PUT and
DELETE on the same table all answer 400. -/
theorem postTable_without_pk (meta : TableMeta) (body : Row) (lastID : Int)
    (idp : String) (tableRows : List Row)
    (hpk : meta.primaryKey = none) (hkeys : bodyKeys meta body ≠ []) :
    apiPostTable meta body lastID =
      PostOutcome.created ((bodyKeys meta body).map (fun k => (k, rowGet body k)))
        ((bodyKeys meta body).map (fun k => (k, rowGet body k))) ∧
    apiGetOne meta idp tableRows =
      ItemOutcome.badRequest "Primary key not found for this table" ∧
    apiPutTable meta idp body tableRows =
      (WriteOutcome.badRequest "Primary key not found for this table", tableRows) ∧
    apiDeleteTable meta idp tableRows =
      (WriteOutcome.badRequest "Primary key not found for this table", tableRows) := by
  refine ⟨?_, ?_, ?_, ?_⟩ <;>
    simp [apiPostTable, apiGetOne, apiPutTable, apiDeleteTable, hpk, hkeys, zip_self_map]

/-- Witness for C10 on a single-column keyless table. -/
theorem postTable_without_pk_witness :
    apiPostTable ⟨["name"], none⟩ [("name", Value.vtext "x")] 7 =
      PostOutcome.created [("name", Value.vtext "x")] [("name", Value.vtext "x")] :=
  (postTable_without_pk ⟨["name"], none⟩ [("name", Value.vtext "x")] 7 "1" [] rfl
      (by decide)).1

/-- C5 counterexample: searching the single-row table `{name: "ab"}` for
the string `%` returns the row — the bound pattern `%%%` matches any
text — although `ab` does not contain `%` as a substring, refuting the
contains-as-substring description for arbitrary search strings. -/
theorem search_wildcard_counterexample :
    (apiSearchTable ⟨["name"], some "id"⟩ "%" [[("name", Value.vtext "ab")]]).2 =
      [[("name", Value.vtext "ab")]] ∧
    specSearchMatches ["name"] "%" [("name", Value.vtext "ab")] = false := by
  exact ⟨rfl, rfl⟩

/-- C5 (amended): the search route answers HTTP 200 with exactly the
rows satisfying the OR of one text-cast LIKE per column against the
`%q%` pattern; whenever `q` contains no LIKE wildcard character (`%` or
`_`) these are exactly the rows in which some column's text rendering
contains `q` as a case-insensitive substring, and no others. -/
theorem searchTable_contains (meta : TableMeta) (q : String) (tableRows : List Row)
    (hw : ∀ c ∈ q.data, c ≠ '%' ∧ c ≠ '_') :
    apiSearchTable meta q tableRows =
      (200, tableRows.filter (rowMatchesSearch meta.columns q)) ∧
    (∀ r, rowMatchesSearch meta.columns q r = specSearchMatches meta.columns q r) ∧
    (∀ r, r ∈ (apiSearchTable meta q tableRows).2 ↔
      (r ∈ tableRows ∧ specSearchMatches meta.columns q r = true)) := by
  have hr : ∀ r, rowMatchesSearch meta.columns q r = specSearchMatches meta.columns q r := by
    intro r
    have hfun : (fun c => match castText (rowGet r c) with
        | none => false
        | some s => likeMatch ('%' :: (q.data ++ ['%'])) s.data) =
        (fun c => match castText (rowGet r c) with
        | none => false
        | some s => containsSub (s.data.map toLowerAscii) (q.data.map toLowerAscii)) := by
      funext c
      cases castText (rowGet r c) with
      | none => rfl
      | some s =>
        simpa using Bool.eq_iff_iff.mpr
          (by simpa using likeMatch_pattern_iff_contains q.data s.data hw)
    simp only [rowMatchesSearch, specSearchMatches, hfun]
  refine ⟨rfl, hr, ?_⟩
  intro r
  simp [apiSearchTable, List.mem_filter, hr r]

/-- Witness for C5 on the spec's own example: rows `Alpha` and `beta`,
searching `AL` returns only the first. -/
theorem searchTable_contains_witness :
    apiSearchTable ⟨["name"], none⟩ "AL"
        [[("name", Value.vtext "Alpha")], [("name", Value.vtext "beta")]] =
      (200, [[("name", Value.vtext "Alpha")]]) :=
  (searchTable_contains ⟨["name"], none⟩ "AL"
      [[("name", Value.vtext "Alpha")], [("name", Value.vtext "beta")]] (by decide)).1
